import Mathlib

/-!
Verification development for the Ensemble repository
(`ensemble_algorithms/ensemble_cross_validation.py` and
`ensemble_algorithms/ensemble_bagging_regression.py`).

The two engines share the same shape: load a series, slice off the last
`test_size` points as the held-out test window, score five candidate
strategies by 10-fold rolling-origin cross-validation on the remaining
prefix (via sklearn `cross_val_score` over `TimeSeriesSplit(n_splits=10)`),
pick a best strategy (`max` of the score dict in the cross-validation
engine, `min` in the bagging engine), and then run the winner over the
test window.

Series values are modelled as rationals, index sequences as `List Nat`.
The estimator classes (`estimators.py`) and the forecast algorithms
(`genetic_algorithm/forecast.py`) are imported by the sources but are not
part of the repository snapshot, so their fit/score/predict behaviour is
abstracted as function parameters; where a claim needs their concrete
behaviour it is modelled from the spec and marked as such.
-/

/-- The five forecasting strategy identifiers, in the fixed order in which
`EnsembleCrossValidation.__init__` and `EnsembleBagging.__init__` insert
them into the `score` dict (`naive`, `ar`, `arma`, `arima`, `ets`). -/
inductive AlgoId where
  | naive
  | ar
  | arma
  | arima
  | ets
  deriving DecidableEq

/-- The dict insertion order of the five strategies: `score['naive']` is
assigned first, then `'ar'`, `'arma'`, `'arima'`, `'ets'`. CPython dicts
iterate in insertion order, so `max`/`min` over the dict enumerate the
keys in this order. -/
def algoOrder : List AlgoId := [.naive, .ar, .arma, .arima, .ets]

/-- Position of a strategy identifier in `algoOrder`. -/
def algoIdx : AlgoId → Nat
  | .naive => 0
  | .ar => 1
  | .arma => 2
  | .arima => 3
  | .ets => 4

/-- Python `range(start, stop, step)` for a positive `step`: the values
`start + k * step` strictly below `stop`. -/
def pyRange (start stop step : Nat) : List Nat :=
  (List.range ((stop - start + step - 1) / step)).map (fun k => start + k * step)

/-- sklearn `TimeSeriesSplit(n_splits).split(X)` on `n_samples` rows.
The constructor raises `ValueError` for `n_splits < 2`, and `split` raises
`ValueError` when `n_splits + 1` folds exceed `n_samples`; both are `none`
here. Otherwise, with `test_size = n_samples // (n_splits + 1)`, the test
block starts run over
`range(test_size + n_samples % (n_splits + 1), n_samples, test_size)` and
each yielded pair is `(indices[:s], indices[s : s + test_size])`. -/
def timeSeriesSplit (n_samples n_splits : Nat) : Option (List (List Nat × List Nat)) :=
  if n_splits < 2 then none
  else if n_samples < n_splits + 1 then none
  else
    some ((pyRange (n_samples / (n_splits + 1) + n_samples % (n_splits + 1))
        n_samples (n_samples / (n_splits + 1))).map
      (fun s => (pyRange 0 s 1,
        pyRange s (min (s + n_samples / (n_splits + 1)) n_samples) 1)))

/-- NumPy-style fancy indexing `xs[idx]` for an index list. -/
def select (xs : List ℚ) (idx : List Nat) : List ℚ :=
  idx.filterMap (fun i => xs.get? i)

/-- Sum of a list of rationals. -/
def listSum (l : List ℚ) : ℚ := l.foldl (· + ·) 0

/-- NumPy `.mean()`: sum divided by length. -/
def mean (l : List ℚ) : ℚ := listSum l / l.length

/-- Per-fold scores of `cross_val_score(est, xs, cv=TimeSeriesSplit(10).split(xs))`:
for each `(train, val)` index pair a fresh estimator is fitted on `xs[train]`
and scored on `xs[val]`. The estimator classes live in `estimators.py`,
which is not among the sources, so the per-fold fit-and-score is the
abstract parameter `f`. -/
def cvFoldScores (f : List ℚ → List ℚ → ℚ) (xs : List ℚ) : Option (List ℚ) :=
  (timeSeriesSplit xs.length 10).map
    (fun L => L.map (fun p => f (select xs p.1) (select xs p.2)))

/-- `cross_val_score(...).mean()`. -/
def crossValMean (f : List ℚ → List ℚ → ℚ) (xs : List ℚ) : Option ℚ :=
  (cvFoldScores f xs).map mean

/-- Python `max(score, key=score.get)` over an insertion-ordered dict given
as an association list: scan in order, replacing the running best only on a
strictly greater value, so the first maximal entry wins. -/
def selectMaxAlgo : List (AlgoId × ℚ) → AlgoId
  | [] => .naive
  | p :: rest => (rest.foldl (fun best q => if best.2 < q.2 then q else best) p).1

/-- Python `min(score, key=score.get)`: the first minimal entry wins. -/
def selectMinAlgo : List (AlgoId × ℚ) → AlgoId
  | [] => .naive
  | p :: rest => (rest.foldl (fun best q => if q.2 < best.2 then q else best) p).1

/-- The five-entry score dict built from a score mapping, in insertion
order. -/
def scoreListOf (f : AlgoId → ℚ) : List (AlgoId × ℚ) :=
  algoOrder.map (fun a => (a, f a))

/-- Python `series[:-t]` (positional slicing) for `t > 0`: everything but
the last `t` elements; empty when `t ≥ len(series)`. -/
def evalSeries (series : List ℚ) (t : Nat) : List ℚ :=
  series.take (series.length - t)

/-- Python `series[-t:]` for `t > 0`: the last `t` elements; the whole
series when `t ≥ len(series)`. -/
def testSeries (series : List ℚ) (t : Nat) : List ℚ :=
  series.drop (series.length - t)

/-- Failure modes of engine construction: the explicit `raise ValueError`
on a non-positive `test_size`, a `ValueError` escaping from
`TimeSeriesSplit.split` / `cross_val_score`, and an `AssertionError` from
the `# be sure` block of the bagging engine. -/
inductive EnsErr where
  | invalidConfig
  | cvError
  | assertFail
  deriving DecidableEq

/-- The `score` dict of lines 59-69 (cross-validation engine) resp. 63-78
(bagging engine): the mean 10-fold cross-validation score of each of the
five strategies on the evaluation series, keyed in insertion order.
`none` when the splitter raises. -/
def cvScoreMap (fs : AlgoId → List ℚ → List ℚ → ℚ) (evalS : List ℚ) :
    Option (List (AlgoId × ℚ)) :=
  match crossValMean (fs .naive) evalS, crossValMean (fs .ar) evalS,
        crossValMean (fs .arma) evalS, crossValMean (fs .arima) evalS,
        crossValMean (fs .ets) evalS with
  | some sn, some sa, some sm, some si, some se =>
      some [(.naive, sn), (.ar, sa), (.arma, sm), (.arima, si), (.ets, se)]
  | _, _, _, _, _ => none

/-- State built by `EnsembleCrossValidation.__init__`. -/
structure CVState where
  series : List ℚ
  test_size : Nat
  test_series : List ℚ
  scoreMap : List (AlgoId × ℚ)
  best_algo : AlgoId
  deriving DecidableEq

/-- `EnsembleCrossValidation.__init__(file_path, test_size)` after the
series has been loaded: reject `test_size <= 0`, slice off the evaluation
and test windows, score the five strategies on the evaluation series, and
select `max(score, key=score.get)`. -/
def initCV (fs : AlgoId → List ℚ → List ℚ → ℚ) (series : List ℚ) (test_size : Int) :
    Except EnsErr CVState :=
  if test_size ≤ 0 then .error .invalidConfig
  else
    match cvScoreMap fs (evalSeries series test_size.toNat) with
    | some score =>
        .ok ⟨series, test_size.toNat, testSeries series test_size.toNat,
             score, selectMaxAlgo score⟩
    | none => .error .cvError

/-- State built by `EnsembleBagging.__init__`. -/
structure BagState where
  series : List ℚ
  test_size : Nat
  eval_series : List ℚ
  test_series : List ℚ
  scoreMap : List (AlgoId × ℚ)
  best_algo : AlgoId
  deriving DecidableEq

/-- `EnsembleBagging.__init__(file_path, test_size)` after the series has
been loaded: reject `test_size <= 0`, slice, run the two `# be sure`
assertions, score the five bagging estimators on the evaluation series,
and select `min(score, key=score.get)`. -/
def initBag (fs : AlgoId → List ℚ → List ℚ → ℚ) (series : List ℚ) (test_size : Int) :
    Except EnsErr BagState :=
  if test_size ≤ 0 then .error .invalidConfig
  else
    let evalS := evalSeries series test_size.toNat
    let testS := testSeries series test_size.toNat
    if testS.length ≠ test_size.toNat then .error .assertFail
    else if testS.length + evalS.length ≠ series.length then .error .assertFail
    else
      match cvScoreMap fs evalS with
      | some score =>
          .ok ⟨series, test_size.toNat, evalS, testS, score, selectMinAlgo score⟩
      | none => .error .cvError

/-- Modelled from the spec: `genetic_algorithm/forecast.py` is not among
the sources; per spec section 4.1 the Naive strategy's one-step forecast is
the last observed value of the data it is given. -/
def naiveForecast (d : List ℚ) : ℚ := (d.getLast?).getD 0

/-- `EnsembleCrossValidation.run_test`: branch on `best_algo` and, for
`i in range(test_size)`, append the single value
`algo.<best>_forecast(data=self.test_series[i:])`. The forecast functions
live in `genetic_algorithm/forecast.py`, which is not among the sources,
so the one-step forecast is the abstract parameter `fc`; the data passed
to it is, as in the source, the suffix of the test series from `i` on. -/
def runTestCV (fc : AlgoId → List ℚ → ℚ) (st : CVState) : List ℚ :=
  match st.best_algo with
  | .naive => (List.range st.test_size).map (fun i => fc .naive (st.test_series.drop i))
  | .ar => (List.range st.test_size).map (fun i => fc .ar (st.test_series.drop i))
  | .arma => (List.range st.test_size).map (fun i => fc .arma (st.test_series.drop i))
  | .arima => (List.range st.test_size).map (fun i => fc .arima (st.test_series.drop i))
  | .ets => (List.range st.test_size).map (fun i => fc .ets (st.test_series.drop i))

/-- `EnsembleBagging.run_test`: branch on `best_algo` to build the matching
bagging estimator, `fit` it once on `self.eval_series`, `predict` over the
test series with that single fitted state, and `score` it on the test
series. The estimator classes are not among the sources; per the spec,
`fit` produces a fitted state from the history it is given and `predict`
applies that state elementwise, so they are the abstract parameters
`fit` / `predictOne` / `scoreF`. -/
def runTestBag {σ : Type} (fit : AlgoId → List ℚ → σ)
    (predictOne : AlgoId → σ → ℚ → ℚ) (scoreF : AlgoId → σ → List ℚ → ℚ)
    (st : BagState) : List ℚ × ℚ :=
  match st.best_algo with
  | .naive =>
      let m := fit .naive st.eval_series
      (st.test_series.map (predictOne .naive m), scoreF .naive m st.test_series)
  | .ar =>
      let m := fit .ar st.eval_series
      (st.test_series.map (predictOne .ar m), scoreF .ar m st.test_series)
  | .arma =>
      let m := fit .arma st.eval_series
      (st.test_series.map (predictOne .arma m), scoreF .arma m st.test_series)
  | .arima =>
      let m := fit .arima st.eval_series
      (st.test_series.map (predictOne .arima m), scoreF .arima m st.test_series)
  | .ets =>
      let m := fit .ets st.eval_series
      (st.test_series.map (predictOne .ets m), scoreF .ets m st.test_series)

/-! ## Properties of `pyRange` and `timeSeriesSplit` -/

lemma pyRange_one_eq (a b : Nat) :
    pyRange a b 1 = (List.range (b - a)).map (fun k => a + k) := by
  unfold pyRange
  simp

lemma mem_pyRange_one {a b x : Nat} : x ∈ pyRange a b 1 ↔ a ≤ x ∧ x < b := by
  rw [pyRange_one_eq]
  simp only [List.mem_map, List.mem_range]
  constructor
  · rintro ⟨k, hk, rfl⟩
    omega
  · rintro ⟨h1, h2⟩
    exact ⟨x - a, by omega, by omega⟩

lemma pyRange_exact (start step K : Nat) (hstep : 0 < step) :
    pyRange start (start + K * step) step = (List.range K).map (fun k => start + k * step) := by
  unfold pyRange
  have h1 : start + K * step - start + step - 1 = step * K + (step - 1) := by
    rw [Nat.add_sub_cancel_left, Nat.mul_comm]
    omega
  rw [h1, Nat.mul_add_div hstep, Nat.div_eq_of_lt (by omega), Nat.add_zero]

lemma tsSplit_some_conditions {N K : Nat} {L : List (List Nat × List Nat)}
    (h : timeSeriesSplit N K = some L) : 2 ≤ K ∧ K + 1 ≤ N := by
  unfold timeSeriesSplit at h
  split at h
  · exact absurd h (by simp)
  · split at h
    · exact absurd h (by simp)
    · omega

lemma timeSeriesSplit_closed (N K ts r : Nat) (hK : 2 ≤ K) (hts : 0 < ts)
    (htsr : ts = N / (K + 1)) (hr : r = N % (K + 1)) (hN : N = ts + r + K * ts) :
    timeSeriesSplit N K = some ((List.range K).map (fun i =>
      (pyRange 0 (ts + r + i * ts) 1,
       pyRange (ts + r + i * ts) (ts + r + i * ts + ts) 1))) := by
  have hKts : K ≤ K * ts := Nat.le_mul_of_pos_right K hts
  unfold timeSeriesSplit
  rw [if_neg (by omega), if_neg (by omega), ← htsr, ← hr, hN,
    pyRange_exact _ _ _ hts, List.map_map]
  refine congrArg some (List.map_congr_left ?_)
  intro i hi
  rw [List.mem_range] at hi
  have hle : ts + r + i * ts + ts ≤ ts + r + K * ts := by
    have h2 : (i + 1) * ts ≤ K * ts := Nat.mul_le_mul_right ts hi
    rw [Nat.succ_mul] at h2
    omega
  simp only [Function.comp]
  rw [Nat.min_eq_left hle]

lemma timeSeriesSplit_length {N K : Nat} {L : List (List Nat × List Nat)}
    (h : timeSeriesSplit N K = some L) : L.length = K := by
  obtain ⟨hK, hN⟩ := tsSplit_some_conditions h
  have hts : 0 < N / (K + 1) := Nat.div_pos hN (by omega)
  have hdm := Nat.div_add_mod N (K + 1)
  rw [Nat.succ_mul] at hdm
  have hN' : N = N / (K + 1) + N % (K + 1) + K * (N / (K + 1)) := by omega
  rw [timeSeriesSplit_closed N K _ _ hK hts rfl rfl hN'] at h
  have := Option.some.inj h
  rw [← this, List.length_map, List.length_range]

/-! ## Inversion of the engine constructors -/

lemma cvFoldScores_some {f : List ℚ → List ℚ → ℚ} {xs : List ℚ} {l : List ℚ}
    (h : cvFoldScores f xs = some l) :
    l.length = 10 ∧ 11 ≤ xs.length := by
  unfold cvFoldScores at h
  rcases ht : timeSeriesSplit xs.length 10 with _ | L
  · rw [ht] at h; simp at h
  · rw [ht] at h
    simp only [Option.map_some'] at h
    obtain ⟨_, hN⟩ := tsSplit_some_conditions ht
    have hL := timeSeriesSplit_length ht
    constructor
    · rw [← Option.some.inj h, List.length_map, hL]
    · omega

lemma cvScoreMap_some {fs : AlgoId → List ℚ → List ℚ → ℚ} {ev : List ℚ}
    {sm : List (AlgoId × ℚ)} (h : cvScoreMap fs ev = some sm) :
    ∃ l1 l2 l3 l4 l5,
      cvFoldScores (fs .naive) ev = some l1 ∧ cvFoldScores (fs .ar) ev = some l2 ∧
      cvFoldScores (fs .arma) ev = some l3 ∧ cvFoldScores (fs .arima) ev = some l4 ∧
      cvFoldScores (fs .ets) ev = some l5 ∧
      sm = [(.naive, mean l1), (.ar, mean l2), (.arma, mean l3),
            (.arima, mean l4), (.ets, mean l5)] := by
  unfold cvScoreMap crossValMean at h
  rcases h1 : cvFoldScores (fs .naive) ev with _ | l1 <;> rw [h1] at h
  · simp at h
  rcases h2 : cvFoldScores (fs .ar) ev with _ | l2 <;> rw [h2] at h
  · simp at h
  rcases h3 : cvFoldScores (fs .arma) ev with _ | l3 <;> rw [h3] at h
  · simp at h
  rcases h4 : cvFoldScores (fs .arima) ev with _ | l4 <;> rw [h4] at h
  · simp at h
  rcases h5 : cvFoldScores (fs .ets) ev with _ | l5 <;> rw [h5] at h
  · simp at h
  simp only [Option.map_some'] at h
  exact ⟨l1, l2, l3, l4, l5, rfl, rfl, rfl, rfl, rfl, (Option.some.inj h).symm⟩

lemma initCV_ok {fs : AlgoId → List ℚ → List ℚ → ℚ} {series : List ℚ} {t : Int}
    {st : CVState} (h : initCV fs series t = .ok st) :
    0 < t ∧ st.series = series ∧ st.test_size = t.toNat ∧
    st.test_series = testSeries series t.toNat ∧
    cvScoreMap fs (evalSeries series t.toNat) = some st.scoreMap ∧
    st.best_algo = selectMaxAlgo st.scoreMap := by
  unfold initCV at h
  split at h
  · exact absurd h (by simp)
  · rename_i ht
    rcases hm : cvScoreMap fs (evalSeries series t.toNat) with _ | sc <;> rw [hm] at h
    · exact absurd h (by simp)
    · have hst := Except.ok.inj h
      refine ⟨by omega, ?_, ?_, ?_, ?_, ?_⟩ <;> rw [← hst]

lemma initBag_ok {fs : AlgoId → List ℚ → List ℚ → ℚ} {series : List ℚ} {t : Int}
    {st : BagState} (h : initBag fs series t = .ok st) :
    0 < t ∧ st.series = series ∧ st.test_size = t.toNat ∧
    st.eval_series = evalSeries series t.toNat ∧
    st.test_series = testSeries series t.toNat ∧
    (testSeries series t.toNat).length = t.toNat ∧
    (testSeries series t.toNat).length + (evalSeries series t.toNat).length = series.length ∧
    cvScoreMap fs (evalSeries series t.toNat) = some st.scoreMap ∧
    st.best_algo = selectMinAlgo st.scoreMap := by
  simp only [initBag] at h
  split at h
  · exact absurd h (by simp)
  · rename_i ht
    split at h
    · exact absurd h (by simp)
    · split at h
      · exact absurd h (by simp)
      · rename_i ha1 ha2
        rcases hm : cvScoreMap fs (evalSeries series t.toNat) with _ | sc <;> rw [hm] at h
        · exact absurd h (by simp)
        · have hst := Except.ok.inj h
          refine ⟨by omega, ?_, ?_, ?_, ?_, by omega, by omega, ?_, ?_⟩ <;> rw [← hst]

/-! ## The model selector: Python max/min over the insertion-ordered score dict -/

lemma selectMaxAlgo_spec (f : AlgoId → ℚ) :
    selectMaxAlgo (scoreListOf f) ∈ algoOrder ∧
    (∀ b ∈ algoOrder, f b ≤ f (selectMaxAlgo (scoreListOf f))) ∧
    (∀ b ∈ algoOrder, algoIdx b < algoIdx (selectMaxAlgo (scoreListOf f)) →
      f b < f (selectMaxAlgo (scoreListOf f))) := by
  simp only [scoreListOf, algoOrder, List.map_cons, List.map_nil, selectMaxAlgo,
    List.foldl_cons, List.foldl_nil]
  split_ifs <;>
    refine ⟨by simp [algoOrder], fun b hb => ?_, fun b hb hlt => ?_⟩ <;>
    fin_cases hb <;>
    simp_all [algoIdx, algoOrder] <;>
    linarith

lemma selectMinAlgo_spec (f : AlgoId → ℚ) :
    selectMinAlgo (scoreListOf f) ∈ algoOrder ∧
    (∀ b ∈ algoOrder, f (selectMinAlgo (scoreListOf f)) ≤ f b) ∧
    (∀ b ∈ algoOrder, algoIdx b < algoIdx (selectMinAlgo (scoreListOf f)) →
      f (selectMinAlgo (scoreListOf f)) < f b) := by
  simp only [scoreListOf, algoOrder, List.map_cons, List.map_nil, selectMinAlgo,
    List.foldl_cons, List.foldl_nil]
  split_ifs <;>
    refine ⟨by simp [algoOrder], fun b hb => ?_, fun b hb hlt => ?_⟩ <;>
    fin_cases hb <;>
    simp_all [algoIdx, algoOrder] <;>
    linarith

/-! ## Concrete engine runs used by the witnesses -/

lemma crossValMean_zero :
    crossValMean (fun _ _ => (0:ℚ)) (List.replicate 11 0) = some 0 := by
  have hf : cvFoldScores (fun _ _ => (0:ℚ)) (List.replicate 11 0)
      = some [0,0,0,0,0,0,0,0,0,0] := rfl
  have hm : mean [(0:ℚ),0,0,0,0,0,0,0,0,0] = 0 := by norm_num [mean, listSum]
  rw [crossValMean, hf, Option.map_some', hm]

lemma cvScoreMap_zero :
    cvScoreMap (fun _ _ _ => 0) (List.replicate 11 0)
      = some [(.naive, 0), (.ar, 0), (.arma, 0), (.arima, 0), (.ets, 0)] := by
  rw [cvScoreMap]
  simp only [crossValMean_zero]

lemma initCV_concrete :
    initCV (fun _ _ _ => 0) (List.replicate 12 0) 1 =
      .ok ⟨List.replicate 12 0, 1, [0],
        [(.naive, 0), (.ar, 0), (.arma, 0), (.arima, 0), (.ets, 0)], .naive⟩ := by
  rw [initCV, if_neg (by norm_num), show Int.toNat 1 = 1 from rfl,
    show evalSeries (List.replicate 12 0) 1 = List.replicate 11 0 from rfl, cvScoreMap_zero]
  rfl

lemma initBag_concrete :
    initBag (fun _ _ _ => 0) (List.replicate 12 0) 1 =
      .ok ⟨List.replicate 12 0, 1, List.replicate 11 0, [0],
        [(.naive, 0), (.ar, 0), (.arma, 0), (.arima, 0), (.ets, 0)], .naive⟩ := by
  rw [initBag, if_neg (by norm_num)]
  rw [if_neg (by decide), if_neg (by decide), show Int.toNat 1 = 1 from rfl,
    show evalSeries (List.replicate 12 0) 1 = List.replicate 11 0 from rfl, cvScoreMap_zero]
  rfl

lemma initCV_concrete_last (x : ℚ) :
    initCV (fun _ _ _ => 0) (List.replicate 11 0 ++ [x]) 1 =
      .ok ⟨List.replicate 11 0 ++ [x], 1, [x],
        [(.naive, 0), (.ar, 0), (.arma, 0), (.arima, 0), (.ets, 0)], .naive⟩ := by
  rw [initCV, if_neg (by norm_num), show Int.toNat 1 = 1 from rfl,
    show evalSeries (List.replicate 11 0 ++ [x]) 1 = List.replicate 11 0 from rfl,
    cvScoreMap_zero]
  rfl

/-! ## The claims -/

/-- Claim C1 (refuted by the code, a bug): the claim says the
cross-validation walk-forward runner fits the selected strategy on the
data up to but excluding test index `i`, so the forecast for step `i`
does not depend on the test values at indices `i` or later. In the
source, `run_test` passes `data=self.test_series[i:]` — the suffix of the
held-out test window from index `i` on — to the forecast call. With the
Naive strategy modelled from the spec (one-step forecast = last observed
value), two series that agree on all data before the test window (and on
every test value except the last) produce different forecasts at step 0,
and each forecast equals the held-out test value itself. -/
theorem c1_cv_walk_forward_reads_test_suffix :
    (List.replicate 11 (0:ℚ) ++ [5]).take 11 = (List.replicate 11 (0:ℚ) ++ [7]).take 11 ∧
    (initCV (fun _ _ _ => 0) (List.replicate 11 (0:ℚ) ++ [5]) 1).map
      (runTestCV (fun _ d => naiveForecast d)) = Except.ok [5] ∧
    (initCV (fun _ _ _ => 0) (List.replicate 11 (0:ℚ) ++ [7]) 1).map
      (runTestCV (fun _ d => naiveForecast d)) = Except.ok [7] := by
  refine ⟨rfl, ?_, ?_⟩ <;> rw [initCV_concrete_last] <;> rfl

/-- Claim C2: the model selector applies argmin over the per-strategy
mean scores in the bagging path and argmax in the cross-validation path:
for every score mapping the `min`-selector's strategy has minimal score
and the `max`-selector's strategy has maximal score, and the engines'
`best_algo` is exactly `selectMinAlgo` (bagging) resp. `selectMaxAlgo`
(cross-validation) of their score dict. -/
theorem c2_selector_argmin_bagging_argmax_cv :
    (∀ f : AlgoId → ℚ, ∀ a ∈ algoOrder,
        f (selectMinAlgo (scoreListOf f)) ≤ f a ∧
        f a ≤ f (selectMaxAlgo (scoreListOf f))) ∧
    (∀ fs series (t : Int) st, initBag fs series t = Except.ok st →
        st.best_algo = selectMinAlgo st.scoreMap) ∧
    (∀ fs series (t : Int) st, initCV fs series t = Except.ok st →
        st.best_algo = selectMaxAlgo st.scoreMap) :=
  ⟨fun f a ha => ⟨(selectMinAlgo_spec f).2.1 a ha, (selectMaxAlgo_spec f).2.1 a ha⟩,
   fun _ _ _ _ h => (initBag_ok h).2.2.2.2.2.2.2.2,
   fun _ _ _ _ h => (initCV_ok h).2.2.2.2.2⟩

/-- Witness for claim C2 at concrete inputs. -/
theorem c2_selector_witness :
    ((fun _ : AlgoId => (0:ℚ)) (selectMinAlgo (scoreListOf (fun _ : AlgoId => (0:ℚ)))) ≤
        (fun _ : AlgoId => (0:ℚ)) AlgoId.naive ∧
      (fun _ : AlgoId => (0:ℚ)) AlgoId.naive ≤
        (fun _ : AlgoId => (0:ℚ)) (selectMaxAlgo (scoreListOf (fun _ : AlgoId => (0:ℚ))))) ∧
    (⟨List.replicate 12 0, 1, List.replicate 11 0, [0],
      [(.naive, 0), (.ar, 0), (.arma, 0), (.arima, 0), (.ets, 0)], .naive⟩ : BagState).best_algo
      = selectMinAlgo (⟨List.replicate 12 0, 1, List.replicate 11 0, [0],
        [(.naive, 0), (.ar, 0), (.arma, 0), (.arima, 0), (.ets, 0)], .naive⟩ : BagState).scoreMap ∧
    (⟨List.replicate 12 0, 1, [0],
      [(.naive, 0), (.ar, 0), (.arma, 0), (.arima, 0), (.ets, 0)], .naive⟩ : CVState).best_algo
      = selectMaxAlgo (⟨List.replicate 12 0, 1, [0],
        [(.naive, 0), (.ar, 0), (.arma, 0), (.arima, 0), (.ets, 0)], .naive⟩ : CVState).scoreMap :=
  ⟨c2_selector_argmin_bagging_argmax_cv.1 (fun _ => 0) AlgoId.naive (by decide),
   c2_selector_argmin_bagging_argmax_cv.2.1 (fun _ _ _ => 0) (List.replicate 12 0) 1 _
     initBag_concrete,
   c2_selector_argmin_bagging_argmax_cv.2.2 (fun _ _ _ => 0) (List.replicate 12 0) 1 _
     initCV_concrete⟩

/-- Claim C3: on ties the selector deterministically picks the tied
strategy that comes first in the fixed enumeration order
naive, ar, arma, arima, ets: the selected strategy is in the enumeration,
it attains the optimum, every strategy strictly earlier in the
enumeration is strictly worse (so a tied optimum is never preceded by
another tied optimum), and equal score mappings yield equal selections. -/
theorem c3_tie_break_first_in_enumeration_order :
    ∀ f : AlgoId → ℚ,
      (selectMaxAlgo (scoreListOf f) ∈ algoOrder ∧
        (∀ b ∈ algoOrder, f b ≤ f (selectMaxAlgo (scoreListOf f))) ∧
        (∀ b ∈ algoOrder, algoIdx b < algoIdx (selectMaxAlgo (scoreListOf f)) →
          f b < f (selectMaxAlgo (scoreListOf f)))) ∧
      (selectMinAlgo (scoreListOf f) ∈ algoOrder ∧
        (∀ b ∈ algoOrder, f (selectMinAlgo (scoreListOf f)) ≤ f b) ∧
        (∀ b ∈ algoOrder, algoIdx b < algoIdx (selectMinAlgo (scoreListOf f)) →
          f (selectMinAlgo (scoreListOf f)) < f b)) ∧
      (∀ g : AlgoId → ℚ, (∀ a ∈ algoOrder, f a = g a) →
        selectMaxAlgo (scoreListOf f) = selectMaxAlgo (scoreListOf g) ∧
        selectMinAlgo (scoreListOf f) = selectMinAlgo (scoreListOf g)) := by
  intro f
  refine ⟨selectMaxAlgo_spec f, selectMinAlgo_spec f, fun g hg => ?_⟩
  have h1 := hg .naive (by simp [algoOrder])
  have h2 := hg .ar (by simp [algoOrder])
  have h3 := hg .arma (by simp [algoOrder])
  have h4 := hg .arima (by simp [algoOrder])
  have h5 := hg .ets (by simp [algoOrder])
  have hl : scoreListOf f = scoreListOf g := by
    simp only [scoreListOf, algoOrder, List.map_cons, List.map_nil, h1, h2, h3, h4, h5]
  rw [hl]
  exact ⟨rfl, rfl⟩

/-- Witness for claim C3 at concrete score mappings with ties. -/
theorem c3_tie_break_witness :
    (fun a : AlgoId => if a = AlgoId.ets then (1:ℚ) else 0) AlgoId.naive <
      (fun a : AlgoId => if a = AlgoId.ets then (1:ℚ) else 0)
        (selectMaxAlgo (scoreListOf (fun a : AlgoId => if a = AlgoId.ets then (1:ℚ) else 0))) ∧
    (fun a : AlgoId => if a = AlgoId.naive then (1:ℚ) else 0)
        (selectMinAlgo (scoreListOf (fun a : AlgoId => if a = AlgoId.naive then (1:ℚ) else 0))) <
      (fun a : AlgoId => if a = AlgoId.naive then (1:ℚ) else 0) AlgoId.naive ∧
    (selectMaxAlgo (scoreListOf (fun a : AlgoId => if a = AlgoId.ets then (1:ℚ) else 0))
        = selectMaxAlgo (scoreListOf (fun a : AlgoId => if a = AlgoId.ets then (1:ℚ) else 0)) ∧
      selectMinAlgo (scoreListOf (fun a : AlgoId => if a = AlgoId.ets then (1:ℚ) else 0))
        = selectMinAlgo (scoreListOf (fun a : AlgoId => if a = AlgoId.ets then (1:ℚ) else 0))) :=
  ⟨(c3_tie_break_first_in_enumeration_order
      (fun a => if a = AlgoId.ets then (1:ℚ) else 0)).1.2.2 AlgoId.naive (by decide) (by decide),
   (c3_tie_break_first_in_enumeration_order
      (fun a => if a = AlgoId.naive then (1:ℚ) else 0)).2.1.2.2 AlgoId.naive (by decide)
      (by decide),
   (c3_tie_break_first_in_enumeration_order
      (fun a => if a = AlgoId.ets then (1:ℚ) else 0)).2.2 _ (fun _ _ => rfl)⟩

/-- Claim C4: for every test window the forecast result is an ordered
sequence of exactly `test_size` predicted values, aligned one-to-one with
the test-series indices: the cross-validation runner emits one value per
loop index in `range(test_size)`, a successfully constructed engine has a
test series of length exactly `test_size`, and the bagging runner's
prediction list maps the test series elementwise. The one-value-per-step
shape of the missing forecast/estimator code is modelled from the spec. -/
theorem c4_forecast_result_length :
    (∀ (fc : AlgoId → List ℚ → ℚ) (st : CVState),
        (runTestCV fc st).length = st.test_size) ∧
    (∀ fs series (t : Int) st, initCV fs series t = Except.ok st →
        st.test_series.length = st.test_size) ∧
    (∀ (σ : Type) (fit : AlgoId → List ℚ → σ) (po : AlgoId → σ → ℚ → ℚ)
        (sc : AlgoId → σ → List ℚ → ℚ) (st : BagState),
        (runTestBag fit po sc st).1.length = st.test_series.length) ∧
    (∀ fs series (t : Int) st, initBag fs series t = Except.ok st →
        st.test_series.length = st.test_size) := by
  refine ⟨?_, ?_, ?_, ?_⟩
  · intro fc st
    rcases st with ⟨s, ts, te, sm, ba⟩
    cases ba <;> simp [runTestCV]
  · intro fs series t st h
    obtain ⟨ht, hs, hts, hte, hsm, hba⟩ := initCV_ok h
    obtain ⟨l1, l2, l3, l4, l5, hl1, _, _, _, _, hsm'⟩ := cvScoreMap_some hsm
    obtain ⟨hlen, hN⟩ := cvFoldScores_some hl1
    rw [hte, hts]
    simp only [testSeries, evalSeries, List.length_drop, List.length_take] at hN ⊢
    omega
  · intro σ fit po sc st
    rcases st with ⟨s, ts, ev, te, sm, ba⟩
    cases ba <;> simp [runTestBag]
  · intro fs series t st h
    obtain ⟨ht, _, hts, _, hte, hlen, _, _, _⟩ := initBag_ok h
    rw [hte, hts, hlen]

/-- Witness for claim C4 at concrete engine states. -/
theorem c4_forecast_result_length_witness :
    (runTestCV (fun _ _ => 0) ⟨List.replicate 12 0, 1, [0],
        [(.naive, 0), (.ar, 0), (.arma, 0), (.arima, 0), (.ets, 0)], .naive⟩).length
      = (⟨List.replicate 12 0, 1, [0],
        [(.naive, 0), (.ar, 0), (.arma, 0), (.arima, 0), (.ets, 0)], .naive⟩ : CVState).test_size ∧
    (⟨List.replicate 12 0, 1, [0],
      [(.naive, 0), (.ar, 0), (.arma, 0), (.arima, 0), (.ets, 0)], .naive⟩ : CVState).test_series.length
      = (⟨List.replicate 12 0, 1, [0],
        [(.naive, 0), (.ar, 0), (.arma, 0), (.arima, 0), (.ets, 0)], .naive⟩ : CVState).test_size ∧
    (runTestBag (fun _ _ => ()) (fun _ _ _ => 0) (fun _ _ _ => 0)
        ⟨List.replicate 12 0, 1, List.replicate 11 0, [0],
          [(.naive, 0), (.ar, 0), (.arma, 0), (.arima, 0), (.ets, 0)], .naive⟩).1.length
      = (⟨List.replicate 12 0, 1, List.replicate 11 0, [0],
        [(.naive, 0), (.ar, 0), (.arma, 0), (.arima, 0), (.ets, 0)], .naive⟩ : BagState).test_series.length ∧
    (⟨List.replicate 12 0, 1, List.replicate 11 0, [0],
      [(.naive, 0), (.ar, 0), (.arma, 0), (.arima, 0), (.ets, 0)], .naive⟩ : BagState).test_series.length
      = (⟨List.replicate 12 0, 1, List.replicate 11 0, [0],
        [(.naive, 0), (.ar, 0), (.arma, 0), (.arima, 0), (.ets, 0)], .naive⟩ : BagState).test_size :=
  ⟨c4_forecast_result_length.1 (fun _ _ => 0) _,
   c4_forecast_result_length.2.1 (fun _ _ _ => 0) (List.replicate 12 0) 1 _ initCV_concrete,
   c4_forecast_result_length.2.2.1 Unit (fun _ _ => ()) (fun _ _ _ => 0) (fun _ _ _ => 0) _,
   c4_forecast_result_length.2.2.2 (fun _ _ _ => 0) (List.replicate 12 0) 1 _ initBag_concrete⟩

/-- Claim C5: the cross-validation scorer evaluates each of the five
candidate strategies over K = 10 rolling-origin folds of the evaluation
series and reduces each strategy's fold scores by arithmetic mean: a
successfully constructed engine's score dict has exactly the five keys
naive, ar, arma, arima, ets in order, and each strategy's entry is the sum
of its 10 fold scores divided by 10. The per-fold fit-and-score of the
missing estimator classes is the abstract parameter `fs`. -/
theorem c5_cv_scorer_mean_of_ten_folds (fs : AlgoId → List ℚ → List ℚ → ℚ)
    (series : List ℚ) (t : Int) (st : CVState)
    (h : initCV fs series t = Except.ok st) :
    st.scoreMap.map Prod.fst = algoOrder ∧
    (∀ a ∈ algoOrder, ∃ fsc,
      cvFoldScores (fs a) (evalSeries series t.toNat) = some fsc ∧
      fsc.length = 10 ∧
      (a, listSum fsc / 10) ∈ st.scoreMap) := by
  obtain ⟨ht, hs, hts, hte, hsm, hba⟩ := initCV_ok h
  obtain ⟨l1, l2, l3, l4, l5, h1, h2, h3, h4, h5, hsm'⟩ := cvScoreMap_some hsm
  constructor
  · rw [hsm']
    rfl
  · intro a ha
    fin_cases ha
    · exact ⟨l1, h1, (cvFoldScores_some h1).1,
        by simp [hsm', mean, (cvFoldScores_some h1).1]⟩
    · exact ⟨l2, h2, (cvFoldScores_some h2).1,
        by simp [hsm', mean, (cvFoldScores_some h2).1]⟩
    · exact ⟨l3, h3, (cvFoldScores_some h3).1,
        by simp [hsm', mean, (cvFoldScores_some h3).1]⟩
    · exact ⟨l4, h4, (cvFoldScores_some h4).1,
        by simp [hsm', mean, (cvFoldScores_some h4).1]⟩
    · exact ⟨l5, h5, (cvFoldScores_some h5).1,
        by simp [hsm', mean, (cvFoldScores_some h5).1]⟩

/-- Witness for claim C5 at a concrete successful construction. -/
theorem c5_cv_scorer_witness :
    (⟨List.replicate 12 0, 1, [0],
      [(.naive, 0), (.ar, 0), (.arma, 0), (.arima, 0), (.ets, 0)], .naive⟩ : CVState).scoreMap.map
        Prod.fst = algoOrder ∧
    (∀ a ∈ algoOrder, ∃ fsc,
      cvFoldScores ((fun _ _ _ => (0:ℚ)) a) (evalSeries (List.replicate 12 0) 1) = some fsc ∧
      fsc.length = 10 ∧
      (a, listSum fsc / 10) ∈ (⟨List.replicate 12 0, 1, [0],
        [(.naive, 0), (.ar, 0), (.arma, 0), (.arima, 0), (.ets, 0)], .naive⟩ : CVState).scoreMap) :=
  c5_cv_scorer_mean_of_ten_folds (fun _ _ _ => 0) (List.replicate 12 0) 1 _ initCV_concrete

/-- Counterexample to claim C6 as stated: the claim quantifies over all
N, K with K ≤ N, but sklearn `TimeSeriesSplit(n_splits=K).split` raises
`ValueError` when `K + 1` folds exceed the `N` samples; at N = K = 10 the
splitter errors out instead of producing 10 splits. -/
theorem c6_splitter_counterexample :
    (10:Nat) ≤ 10 ∧ timeSeriesSplit 10 10 = none :=
  ⟨le_refl 10, rfl⟩

/-- Claim C6 (amended: `K ≤ N` strengthened to `2 ≤ K` and `K + 1 ≤ N`,
the exact domain on which sklearn's splitter does not raise): the
rolling-origin splitter produces exactly K (train, validation) splits;
each validation range is a non-empty contiguous block and its train range
is the full prefix preceding it; every validation index is strictly
greater than every index of its paired train range; validation blocks are
pairwise disjoint and their union is exactly a suffix `[m, N)` of length
at least K; and each fold's train range is a strict subset of the next
fold's. -/
theorem c6_rolling_origin_splitter (N K : Nat) (hK : 2 ≤ K) (hN : K + 1 ≤ N) :
    ∃ L, timeSeriesSplit N K = some L ∧
      L.length = K ∧
      (∀ p ∈ L, ∃ s e, s < e ∧ p.2 = pyRange s e 1 ∧ p.1 = pyRange 0 s 1) ∧
      (∀ p ∈ L, ∀ y ∈ p.1, ∀ x ∈ p.2, y < x) ∧
      L.Pairwise (fun p q => ∀ x ∈ p.2, x ∉ q.2) ∧
      (∃ m, m + K ≤ N ∧ ∀ x, (∃ p ∈ L, x ∈ p.2) ↔ (m ≤ x ∧ x < N)) ∧
      L.Chain' (fun p q => (∀ y ∈ p.1, y ∈ q.1) ∧ ∃ y, y ∈ q.1 ∧ y ∉ p.1) := by
  have hts : 0 < N / (K + 1) := Nat.div_pos hN (by omega)
  have hdm := Nat.div_add_mod N (K + 1)
  rw [Nat.succ_mul] at hdm
  set ts := N / (K + 1) with hts_def
  set r := N % (K + 1) with hr_def
  have hN' : N = ts + r + K * ts := by omega
  have hKts : K ≤ K * ts := Nat.le_mul_of_pos_right K hts
  have hstep : ∀ i j : Nat, i < j → ts + r + i * ts + ts ≤ ts + r + j * ts := by
    intro i j hij
    have h2 : (i + 1) * ts ≤ j * ts := Nat.mul_le_mul_right ts hij
    rw [Nat.succ_mul] at h2
    omega
  have hmono : ∀ i j : Nat, i ≤ j → ts + r + i * ts ≤ ts + r + j * ts := by
    intro i j hij
    have h2 : i * ts ≤ j * ts := Nat.mul_le_mul_right ts hij
    omega
  have hub : ∀ i : Nat, i < K → ts + r + i * ts + ts ≤ N := by
    intro i hi
    have h2 : (i + 1) * ts ≤ K * ts := Nat.mul_le_mul_right ts hi
    rw [Nat.succ_mul] at h2
    omega
  refine ⟨_, timeSeriesSplit_closed N K ts r hK hts hts_def hr_def hN', ?_, ?_, ?_, ?_, ?_, ?_⟩
  · rw [List.length_map, List.length_range]
  · intro p hp
    rw [List.mem_map] at hp
    obtain ⟨i, hi, rfl⟩ := hp
    exact ⟨ts + r + i * ts, ts + r + i * ts + ts, by omega, rfl, rfl⟩
  · intro p hp y hy x hx
    rw [List.mem_map] at hp
    obtain ⟨i, hi, rfl⟩ := hp
    rw [mem_pyRange_one] at hy hx
    omega
  · rw [List.pairwise_map]
    refine (List.pairwise_lt_range K).imp ?_
    intro i j hij x hx hx'
    rw [mem_pyRange_one] at hx hx'
    have := hstep i j hij
    omega
  · refine ⟨ts + r, by omega, fun x => ⟨?_, ?_⟩⟩
    · rintro ⟨p, hp, hx⟩
      rw [List.mem_map] at hp
      obtain ⟨i, hi, rfl⟩ := hp
      rw [List.mem_range] at hi
      rw [mem_pyRange_one] at hx
      have := hub i hi
      omega
    · rintro ⟨hmx, hxN⟩
      have hiK : (x - (ts + r)) / ts < K := by
        rw [Nat.div_lt_iff_lt_mul hts]
        omega
      refine ⟨_, List.mem_map.mpr ⟨(x - (ts + r)) / ts, List.mem_range.mpr hiK, rfl⟩, ?_⟩
      rw [mem_pyRange_one]
      have hd : ((x - (ts + r)) / ts) * ts ≤ x - (ts + r) := Nat.div_mul_le_self _ _
      have hm2 := Nat.div_add_mod (x - (ts + r)) ts
      have hmod : (x - (ts + r)) % ts < ts := Nat.mod_lt _ hts
      have hcomm : ts * ((x - (ts + r)) / ts) = ((x - (ts + r)) / ts) * ts :=
        Nat.mul_comm _ _
      omega
  · refine List.Pairwise.chain' ?_
    rw [List.pairwise_map]
    refine (List.pairwise_lt_range K).imp ?_
    intro i j hij
    have hij' := hstep i j hij
    constructor
    · intro y hy
      rw [mem_pyRange_one] at hy ⊢
      have := hmono i j (le_of_lt hij)
      omega
    · refine ⟨ts + r + i * ts, ?_, ?_⟩
      · rw [mem_pyRange_one]
        omega
      · rw [mem_pyRange_one]
        omega

/-- Witness for the amended claim C6 at N = 12, K = 2. -/
theorem c6_rolling_origin_splitter_witness :
    ∃ L, timeSeriesSplit 12 2 = some L ∧
      L.length = 2 ∧
      (∀ p ∈ L, ∃ s e, s < e ∧ p.2 = pyRange s e 1 ∧ p.1 = pyRange 0 s 1) ∧
      (∀ p ∈ L, ∀ y ∈ p.1, ∀ x ∈ p.2, y < x) ∧
      L.Pairwise (fun p q => ∀ x ∈ p.2, x ∉ q.2) ∧
      (∃ m, m + 2 ≤ 12 ∧ ∀ x, (∃ p ∈ L, x ∈ p.2) ↔ (m ≤ x ∧ x < 12)) ∧
      L.Chain' (fun p q => (∀ y ∈ p.1, y ∈ q.1) ∧ ∃ y, y ∈ q.1 ∧ y ∉ p.1) :=
  c6_rolling_origin_splitter 12 2 (by norm_num) (by norm_num)

/-- Claim C7: for every non-positive `test_size` both engine constructors
fail with the explicit `raise ValueError`, and they fail before any
cross-validation fitting or scoring work: the error is produced for every
possible fold fit-and-score function. -/
theorem c7_nonpositive_test_size_fails_fast (fs : AlgoId → List ℚ → List ℚ → ℚ)
    (series : List ℚ) (t : Int) (ht : t ≤ 0) :
    initCV fs series t = .error .invalidConfig ∧
    initBag fs series t = .error .invalidConfig := by
  constructor
  · rw [initCV, if_pos ht]
  · rw [initBag, if_pos ht]

/-- Witness for claim C7 at `test_size = 0`. -/
theorem c7_invalid_config_witness :
    initCV (fun _ _ _ => 0) [] 0 = .error .invalidConfig ∧
    initBag (fun _ _ _ => 0) [] 0 = .error .invalidConfig :=
  c7_nonpositive_test_size_fails_fast (fun _ _ _ => 0) [] 0 (le_refl 0)

/-- Claim C8: in the bagging path `run_test` fits the selected estimator
exactly once, on the evaluation series (the loaded series with the last
`test_size` points excluded), and reuses that single fitted state to
predict the whole test window: whichever of the five branches is taken,
the prediction list is the test series mapped under the one state
`fit best_algo eval_series`, and a successfully constructed engine's
`eval_series`/`test_series` are exactly the prefix/suffix slices. The
estimator's fit/predict/score behaviour (missing `estimators.py`) is
modelled from the spec as abstract parameters. -/
theorem c8_bagging_fits_once_on_eval :
    (∀ (σ : Type) (fit : AlgoId → List ℚ → σ) (po : AlgoId → σ → ℚ → ℚ)
        (sc : AlgoId → σ → List ℚ → ℚ) (st : BagState),
      (runTestBag fit po sc st).1
        = st.test_series.map (po st.best_algo (fit st.best_algo st.eval_series))) ∧
    (∀ fs series (t : Int) st, initBag fs series t = Except.ok st →
      st.eval_series = evalSeries series t.toNat ∧
      st.test_series = testSeries series t.toNat) := by
  constructor
  · intro σ fit po sc st
    rcases st with ⟨s, ts, ev, te, sm, ba⟩
    cases ba <;> rfl
  · intro fs series t st h
    exact ⟨(initBag_ok h).2.2.2.1, (initBag_ok h).2.2.2.2.1⟩

/-- Witness for claim C8 at a concrete estimator model and engine state. -/
theorem c8_bagging_fits_once_witness :
    (runTestBag (fun _ h => h) (fun _ s x => x + listSum s) (fun _ _ _ => 0)
        ⟨List.replicate 12 0, 1, List.replicate 11 0, [0],
          [(.naive, 0), (.ar, 0), (.arma, 0), (.arima, 0), (.ets, 0)], .naive⟩).1
      = (⟨List.replicate 12 0, 1, List.replicate 11 0, [0],
          [(.naive, 0), (.ar, 0), (.arma, 0), (.arima, 0), (.ets, 0)], .naive⟩ : BagState).test_series.map
          ((fun _ s x => x + listSum s) (⟨List.replicate 12 0, 1, List.replicate 11 0, [0],
            [(.naive, 0), (.ar, 0), (.arma, 0), (.arima, 0), (.ets, 0)], .naive⟩ : BagState).best_algo
            ((fun _ h => h) (⟨List.replicate 12 0, 1, List.replicate 11 0, [0],
              [(.naive, 0), (.ar, 0), (.arma, 0), (.arima, 0), (.ets, 0)], .naive⟩ : BagState).best_algo
              (⟨List.replicate 12 0, 1, List.replicate 11 0, [0],
                [(.naive, 0), (.ar, 0), (.arma, 0), (.arima, 0), (.ets, 0)], .naive⟩ : BagState).eval_series)) ∧
    ((⟨List.replicate 12 0, 1, List.replicate 11 0, [0],
        [(.naive, 0), (.ar, 0), (.arma, 0), (.arima, 0), (.ets, 0)], .naive⟩ : BagState).eval_series
      = evalSeries (List.replicate 12 0) 1 ∧
     (⟨List.replicate 12 0, 1, List.replicate 11 0, [0],
        [(.naive, 0), (.ar, 0), (.arma, 0), (.arima, 0), (.ets, 0)], .naive⟩ : BagState).test_series
      = testSeries (List.replicate 12 0) 1) :=
  ⟨c8_bagging_fits_once_on_eval.1 (List ℚ) (fun _ h => h) (fun _ s x => x + listSum s)
      (fun _ _ _ => 0) _,
   c8_bagging_fits_once_on_eval.2 (fun _ _ _ => 0) (List.replicate 12 0) 1 _ initBag_concrete⟩

/-- Claim C9: model selection never reads the test window: for any two
loaded series of equal length that agree on all but the last `test_size`
values, both engines compute identical score dicts and identical
`best_algo` identifiers (including identical failure behaviour), because
scoring runs only on the prefix `series[:-test_size]`. -/
theorem c9_selection_blind_to_test_window
    (fs : AlgoId → List ℚ → List ℚ → ℚ) (s1 s2 : List ℚ) (t : Int)
    (hlen : s1.length = s2.length)
    (hpre : s1.take (s1.length - t.toNat) = s2.take (s2.length - t.toNat)) :
    (initCV fs s1 t).map (fun st => (st.scoreMap, st.best_algo))
      = (initCV fs s2 t).map (fun st => (st.scoreMap, st.best_algo)) ∧
    (initBag fs s1 t).map (fun st => (st.scoreMap, st.best_algo))
      = (initBag fs s2 t).map (fun st => (st.scoreMap, st.best_algo)) := by
  have he : evalSeries s1 t.toNat = evalSeries s2 t.toNat := hpre
  by_cases ht : t ≤ 0
  · simp [initCV, initBag, ht]
  · constructor
    · simp only [initCV, if_neg ht, he]
      rcases hm : cvScoreMap fs (evalSeries s2 t.toNat) with _ | sc <;>
        simp [hm, Except.map]
    · simp only [initBag, if_neg ht, he]
      have hT : (testSeries s1 t.toNat).length = (testSeries s2 t.toNat).length := by
        simp [testSeries, hlen]
      rw [hT, hlen]
      rcases hm : cvScoreMap fs (evalSeries s2 t.toNat) with _ | sc <;>
        by_cases h1 : (testSeries s2 t.toNat).length ≠ t.toNat <;>
        by_cases h2 : (testSeries s2 t.toNat).length + (evalSeries s2 t.toNat).length
          ≠ s2.length <;>
        simp [h1, h2, hm, Except.map]

/-- Witness for claim C9 at two concrete series differing only in the
last (test) value. -/
theorem c9_selection_blind_witness :
    (initCV (fun _ _ _ => 0) (List.replicate 12 0) 1).map
        (fun st => (st.scoreMap, st.best_algo))
      = (initCV (fun _ _ _ => 0) (List.replicate 11 0 ++ [5]) 1).map
        (fun st => (st.scoreMap, st.best_algo)) ∧
    (initBag (fun _ _ _ => 0) (List.replicate 12 0) 1).map
        (fun st => (st.scoreMap, st.best_algo))
      = (initBag (fun _ _ _ => 0) (List.replicate 11 0 ++ [5]) 1).map
        (fun st => (st.scoreMap, st.best_algo)) :=
  c9_selection_blind_to_test_window (fun _ _ _ => 0) (List.replicate 12 0)
    (List.replicate 11 0 ++ [5]) 1 rfl rfl

/-- Claim C10: in the bagging path, for every positive `test_size` the
constructor's two length assertions hold whenever the series has at least
`test_size` points (and then construction never fails with an assertion
error), while for a shorter series the first assertion fails and
construction aborts with the assertion error before any scoring, for
every possible fold fit-and-score function. -/
theorem c10_bagging_length_assertions (fs : AlgoId → List ℚ → List ℚ → ℚ)
    (series : List ℚ) (t : Int) (ht : 0 < t) :
    (t.toNat ≤ series.length →
      (testSeries series t.toNat).length = t.toNat ∧
      (testSeries series t.toNat).length + (evalSeries series t.toNat).length
        = series.length ∧
      initBag fs series t ≠ .error .assertFail) ∧
    (series.length < t.toNat → initBag fs series t = .error .assertFail) := by
  have ht' : ¬ t ≤ 0 := by omega
  have hT : (testSeries series t.toNat).length
      = series.length - (series.length - t.toNat) := by
    simp [testSeries]
  have hE : (evalSeries series t.toNat).length
      = min (series.length - t.toNat) series.length := by
    simp [evalSeries]
  constructor
  · intro hle
    refine ⟨by omega, by omega, ?_⟩
    simp only [initBag, if_neg ht']
    rw [if_neg (by omega), if_neg (by omega)]
    rcases hm : cvScoreMap fs (evalSeries series t.toNat) with _ | sc <;> simp
  · intro hgt
    simp only [initBag, if_neg ht']
    rw [if_pos (by omega)]

/-- Witness for claim C10 at a series of length 3 with `test_size = 5`. -/
theorem c10_bagging_assertions_witness :
    (5 ≤ ([(0:ℚ), 0, 0]).length →
      (testSeries [(0:ℚ), 0, 0] 5).length = 5 ∧
      (testSeries [(0:ℚ), 0, 0] 5).length + (evalSeries [(0:ℚ), 0, 0] 5).length
        = ([(0:ℚ), 0, 0]).length ∧
      initBag (fun _ _ _ => 0) [(0:ℚ), 0, 0] 5 ≠ .error .assertFail) ∧
    (([(0:ℚ), 0, 0]).length < 5 →
      initBag (fun _ _ _ => 0) [(0:ℚ), 0, 0] 5 = .error .assertFail) :=
  c10_bagging_length_assertions (fun _ _ _ => 0) [(0:ℚ), 0, 0] 5 (by norm_num)
